import Mathlib

/-!
# Verification of the temperature-harvesting core of `bottom`

Shallow embedding of `src/data_collection/temperature.rs` and
`src/data_collection/temperature/lm_sensors.rs`, together with proofs about
the embedded functions.

Modelling conventions:
* Rust `String`/`&str` values are Lean `String`s; the string operations the
  source uses (`lines`, `trim`, `contains`, `split_whitespace`, `ends_with`,
  `trim_end_matches`, `replace`, `split('-')`, `to_lowercase`) are defined
  below on `List Char` and lifted to `String`.
* Rust `f32` values are modelled by `F32`: an exact rational for finite
  values, plus the special values infinity, negative infinity and NaN.
  Rounding of finite values to the nearest representable `f32` is abstracted
  away (finite results are kept exact); the special values produced by
  `str::parse::<f32>` on the literals `inf`/`infinity`/`nan` are modelled
  per the documented grammar of `f32::from_str`.
* Fallible Rust code returns `Except`/`Option`; a Rust panic is modelled as
  the `none` of an outer `Option`.
-/

/-- Does the pattern `pat` occur as a contiguous run inside `l`?
Embeds Rust `str::contains` (substring containment) at the character-list
level. -/
def listOccurs (pat : List Char) : List Char → Bool
  | [] => pat.isEmpty
  | c :: rest => pat.isPrefixOf (c :: rest) || listOccurs pat rest

/-- Rust `str::contains(pat)` on strings. -/
def strContainsSub (s pat : String) : Bool :=
  listOccurs pat.toList s.toList

/-- Rust `str::ends_with(pat)` on strings. -/
def strEndsWith (s pat : String) : Bool :=
  pat.toList.isSuffixOf s.toList

/-- Rust `str::trim_end_matches(':')`: repeatedly removes trailing `:`
characters. -/
def trimEndColons (s : String) : String :=
  ((s.toList.reverse.dropWhile (fun c => c == ':')).reverse).asString

/-- Accumulator pass behind `splitWs`: `acc` holds the (reversed) characters
of the token currently being read. -/
def splitWsAux : List Char → List Char → List String
  | acc, [] => if acc.isEmpty then [] else [acc.reverse.asString]
  | acc, c :: rest =>
    if c.isWhitespace then
      if acc.isEmpty then splitWsAux [] rest
      else acc.reverse.asString :: splitWsAux [] rest
    else splitWsAux (c :: acc) rest

/-- Rust `str::split_whitespace`: tokens separated by runs of whitespace,
with no empty tokens.  (The source calls `trim_start().split_whitespace()`;
the leading `trim_start` is a no-op under `split_whitespace`, and this
definition already skips leading whitespace.) -/
def splitWs (s : String) : List String :=
  splitWsAux [] s.toList

/-- Split a character list at every occurrence of the separator `sep`,
keeping empty segments; the result is never empty.  Embeds the segment
sequence of Rust `str::split(sep)`. -/
def charSplit (sep : Char) : List Char → List (List Char)
  | [] => [[]]
  | c :: rest =>
    if c = sep then [] :: charSplit sep rest
    else
      match charSplit sep rest with
      | [] => [[c]]
      | seg :: segs => (c :: seg) :: segs

/-- The first item of Rust `device_name.split('-')` — the text before the
first `-`, or the whole string when there is none.  A split iterator always
yields at least one item, so the `.expect("device name")` in the source can
never fire; see `charSplit_ne_nil`. -/
def firstDashSegment (s : String) : String :=
  ((charSplit (Char.ofNat 45) s.toList).headD []).asString

/-- Segment sequence of Rust `str::lines`: split at `\n`, with a `\r`
immediately preceding a `\n` stripped.  A final segment for a trailing
newline is removed afterwards by `rustLines`. -/
def splitNl : List Char → List (List Char)
  | [] => [[]]
  | '\r' :: '\n' :: rest => [] :: splitNl rest
  | '\n' :: rest => [] :: splitNl rest
  | c :: rest =>
    match splitNl rest with
    | [] => [[c]]
    | seg :: segs => (c :: seg) :: segs

/-- Rust `str::lines()`: the `splitNl` segments, except that a trailing
line terminator does not produce a final empty line. -/
def rustLines (s : String) : List String :=
  let segs := splitNl s.toList
  let segs := if segs.getLast? = some [] then segs.dropLast else segs
  segs.map List.asString

/-- Character-level pass behind `stripAdapterLabels`: drop every
left-to-right, non-overlapping occurrence of the nine characters
`A`, `d`, `a`, `p`, `t`, `e`, `r`, `:`, space. -/
def stripAdapterGo : List Char → List Char
  | 'A' :: 'd' :: 'a' :: 'p' :: 't' :: 'e' :: 'r' :: ':' :: ' ' :: rest =>
    stripAdapterGo rest
  | c :: rest => c :: stripAdapterGo rest
  | [] => []

/-- Rust `adapter_line.replace("Adapter: ", "")`: remove every (non
overlapping, left-to-right) occurrence of the 9-character pattern
`"Adapter: "`. -/
def stripAdapterLabels (s : String) : String :=
  (stripAdapterGo s.toList).asString

/-! ## The `f32` model -/

/-- Rust `str::to_lowercase`, character by character (all the characters
relevant to this program are ASCII, where Rust lowercasing agrees with
`Char.toLower`). -/
def lowerStr (s : String) : String :=
  (s.toList.map Char.toLower).asString

/-- Model of a Rust `f32` value: an exact rational for finite values plus
the three special values. -/
inductive F32 where
  | finite (q : ℚ)
  | inf
  | negInf
  | nan
deriving DecidableEq

/-- Is the value finite (neither an infinity nor NaN)? -/
def F32.isFinite : F32 → Bool
  | .finite _ => true
  | _ => false

/-- Value of a digit run, most significant first. -/
def digitsToNat (cs : List Char) : Nat :=
  cs.foldl (fun n c => n * 10 + (c.toNat - 48)) 0

/-- Mantissa of the documented `f32::from_str` grammar:
`Count '.'? Count?` or `'.' Count`.  The value is returned as a scaled
integer `(n, k)` standing for `n / 10 ^ k`, so that the final rational can
be built with a single `mkRat` (which the kernel evaluates). -/
def parseMantissa (cs : List Char) : Option (ℤ × ℕ) :=
  let ip := cs.takeWhile Char.isDigit
  let rest := cs.drop ip.length
  match rest with
  | [] => if ip.isEmpty then none else some ((digitsToNat ip : ℤ), 0)
  | c :: fr =>
    if c = '.' then
      if fr.all Char.isDigit && !(ip.isEmpty && fr.isEmpty) then
        some (((digitsToNat ip * 10 ^ fr.length + digitsToNat fr : ℕ) : ℤ), fr.length)
      else none
    else none

/-- Number part of the documented `f32::from_str` grammar: a mantissa with
an optional `e`-exponent (the input has already been lowercased, and the
leading sign already removed — `neg` records it). -/
def parseNumber (neg : Bool) (cs : List Char) : Option ℚ :=
  let mant := cs.takeWhile (fun c => c ≠ 'e')
  let rest := cs.drop mant.length
  match parseMantissa mant with
  | none => none
  | some nk =>
    let n : ℤ := if neg then -nk.1 else nk.1
    match rest with
    | [] => some (mkRat n (10 ^ nk.2))
    | _ :: expPart =>
      let signSplit : Bool × List Char :=
        match expPart with
        | c :: r =>
          if c = '+' then (false, r)
          else if c = '-' then (true, r)
          else (false, expPart)
        | [] => (false, [])
      let eneg := signSplit.1
      let eds := signSplit.2
      if !eds.isEmpty && eds.all Char.isDigit then
        some (if eneg then mkRat n (10 ^ nk.2 * 10 ^ digitsToNat eds)
              else mkRat (n * 10 ^ digitsToNat eds) (10 ^ nk.2))
      else none

/-- Model of Rust `str::parse::<f32>` per the documented grammar of
`f32::from_str`: optional sign, then (case-insensitively) `inf`,
`infinity`, `nan`, or a decimal number with optional fraction and
exponent.  Finite results are kept as exact rationals (rounding to the
nearest `f32`, and overflow of huge finite literals to infinity, are
abstracted away); `inf`/`infinity`/`nan` yield the special values. -/
def parseF32 (s : String) : Option F32 :=
  let cs := (lowerStr s).toList
  let signSplit : Bool × List Char :=
    match cs with
    | c :: r =>
      if c = '+' then (false, r)
      else if c = '-' then (true, r)
      else (false, cs)
    | [] => (false, [])
  let neg := signSplit.1
  let rest := signSplit.2
  if rest = "inf".toList || rest = "infinity".toList then
    some (if neg then F32.negInf else F32.inf)
  else if rest = "nan".toList then
    some F32.nan
  else
    match parseNumber neg rest with
    | some q => some (F32.finite q)
    | none => none

/-- Rust `parts[1].parse().unwrap_or(0.0)`: the parsed value, defaulting to
`0.0` when parsing fails. -/
def parseOrZero (s : String) : F32 :=
  (parseF32 s).getD (F32.finite 0)

/-- `f32` addition on the model.  The special-value cases follow IEEE 754;
finite results are kept exact: rounding and overflow of finite sums to
`±inf` are abstracted away, so no finiteness of finite-case results may be
read off from this model. -/
def F32.add : F32 → F32 → F32
  | .finite a, .finite b => .finite (a + b)
  | .nan, _ => .nan
  | _, .nan => .nan
  | .inf, .negInf => .nan
  | .negInf, .inf => .nan
  | .inf, _ => .inf
  | _, .inf => .inf
  | .negInf, _ => .negInf
  | _, .negInf => .negInf

/-- `f32` multiplication on the model.  The special-value cases follow
IEEE 754; finite results are kept exact: rounding and overflow of finite
products to `±inf` are abstracted away, so no finiteness of finite-case
results may be read off from this model. -/
def F32.mul : F32 → F32 → F32
  | .finite a, .finite b => .finite (a * b)
  | .nan, _ => .nan
  | _, .nan => .nan
  | .inf, .inf => .inf
  | .inf, .negInf => .negInf
  | .negInf, .inf => .negInf
  | .negInf, .negInf => .inf
  | .inf, .finite b => if b = 0 then .nan else if 0 < b then .inf else .negInf
  | .finite a, .inf => if a = 0 then .nan else if 0 < a then .inf else .negInf
  | .negInf, .finite b => if b = 0 then .nan else if 0 < b then .negInf else .inf
  | .finite a, .negInf => if a = 0 then .nan else if 0 < a then .negInf else .inf

/-- Rust `str::trim` (both model and source only ever meet ASCII
whitespace, where `Char.isWhitespace` agrees with Rust
`char::is_whitespace`). -/
def trimChars (s : String) : String :=
  (((s.toList.dropWhile Char.isWhitespace).reverse.dropWhile
      Char.isWhitespace).reverse).asString

example : parseF32 "45.0" = some (F32.finite 45) := by decide
example : parseF32 "notanumber" = none := by decide
example : parseF32 "inf" = some F32.inf := by decide
example : parseF32 "-3.5e1" = some (F32.finite (-35)) := by decide
example : parseF32 "+2.5" = some (F32.finite (mkRat 25 10)) := by decide
example : parseF32 "NaN" = some F32.nan := by decide
example : parseF32 "-infinity" = some F32.negInf := by decide
example : parseF32 "1e2" = some (F32.finite 100) := by decide
example : parseF32 "4x" = none := by decide
example : parseF32 "" = none := by decide
example : parseF32 "." = none := by decide
example : parseOrZero "notanumber" = F32.finite 0 := by decide
example : splitWs "  temp1_input    45.0" = ["temp1_input", "45.0"] := by decide
example : rustLines "dev-0\nAdapter: ISA\ntemp1:\n  temp1_input    45.0\n\n"
    = ["dev-0", "Adapter: ISA", "temp1:", "  temp1_input    45.0", ""] := by decide
example : stripAdapterLabels "Adapter: ISA" = "ISA" := by decide
example : stripAdapterLabels "x Adapter: y" = "x y" := by decide
example : firstDashSegment "acpitz-virtual-0" = "acpitz" := by decide
example : firstDashSegment "" = "" := by decide
example : strContainsSub "a-b" "-" = true := by decide
example : trimEndColons "temp1:" = "temp1" := by decide

/-! ## `src/data_collection/temperature.rs` -/

/-- The `TemperatureType` enumeration (default `Celsius`). -/
inductive TemperatureType where
  | Celsius
  | Kelvin
  | Fahrenheit
deriving DecidableEq

/-- The `TempHarvest` record: one named temperature observation. -/
structure TempHarvest where
  name : String
  temperature : Option F32
deriving DecidableEq

/-- The single-quote character, written via its code point. -/
def quoteChar : String :=
  [Char.ofNat 39].asString

/-- The error message of `FromStr for TemperatureType`:
`'{s}' is an invalid temperature type, use one of: [kelvin, k, celsius, c, fahrenheit, f].` -/
def invalidTempTypeMsg (s : String) : String :=
  quoteChar ++ s ++ quoteChar ++
    " is an invalid temperature type, use one of: [kelvin, k, celsius, c, fahrenheit, f]."

/-- `impl FromStr for TemperatureType`: the `from_str` match. -/
def TemperatureType.from_str (s : String) : Except String TemperatureType :=
  if s = "fahrenheit" ∨ s = "f" then Except.ok TemperatureType.Fahrenheit
  else if s = "kelvin" ∨ s = "k" then Except.ok TemperatureType.Kelvin
  else if s = "celsius" ∨ s = "c" then Except.ok TemperatureType.Celsius
  else Except.error (invalidTempTypeMsg s)

/-- `TemperatureType::convert_temp_unit`: convert a Celsius reading into
the selected unit.  The `f32` literals `273.15` and `9.0 / 5.0` are
modelled by the exact rationals they denote (their rounding to `f32` is
abstracted away, as everywhere in the `F32` model). -/
def TemperatureType.convert_temp_unit (t : TemperatureType) (temp_celsius : F32) : F32 :=
  match t with
  | .Celsius => temp_celsius
  | .Kelvin => temp_celsius.add (F32.finite (mkRat 27315 100))
  | .Fahrenheit => (temp_celsius.mul (F32.finite (mkRat 9 5))).add (F32.finite 32)

/-! ## The `Filter` collaborator -/

/-- Modelled from the spec: the `Filter` collaborator is defined in
`src/app/filter.rs`, which is not among the provided sources.  Spec §6
fixes its interface: `optional_should_keep(filter: Option<Filter>, name:
&str) -> bool` returns true unconditionally when no filter is supplied,
and otherwise reports whether the filter accepts the name.  A filter is
modelled abstractly by its acceptance predicate on names.  (Named
`NameFilter` here because `Filter` is taken by Mathlib.) -/
def NameFilter : Type :=
  String → Bool

/-- Modelled from the spec: `Filter::optional_should_keep`. -/
def NameFilter.optional_should_keep (filter : Option NameFilter) (name : String) : Bool :=
  match filter with
  | none => true
  | some f => f name

/-! ## `src/data_collection/temperature/lm_sensors.rs` -/

/-- `enum LmSensorsSensorType { Temp, Fan, Voltage }`. -/
inductive LmSensorsSensorType where
  | Temp
  | Fan
  | Voltage
deriving DecidableEq

/-- `struct LmSensorsSensor { name, value, sensor_type }`. -/
structure LmSensorsSensor where
  name : String
  value : F32
  sensor_type : LmSensorsSensorType
deriving DecidableEq

/-- `struct LmSensorsDevice { name, adapter, sensors }`. -/
structure LmSensorsDevice where
  name : String
  adapter : String
  sensors : List LmSensorsSensor
deriving DecidableEq

/-- `parse_lm_sensors_sensor_type`: classify a sensor token by substring
match. -/
def parse_lm_sensors_sensor_type (sensor_name : String) : LmSensorsSensorType :=
  if strContainsSub sensor_name "temp" then LmSensorsSensorType.Temp
  else if strContainsSub sensor_name "fan" then LmSensorsSensorType.Fan
  else LmSensorsSensorType.Voltage

/-- `format_friendly_names`: map a device identifier to a short label by
case-insensitive substring rules (first match wins), defaulting to the
text before the first `-`; the result is `"<label>: <sensor_name>"`.
The source's `device_name.split('-').next().expect("device name")` is
embedded by `firstDashSegment`; a split iterator always yields at least
one item (`charSplit_ne_nil` below), so the `.expect` can never fire. -/
def format_friendly_names (device_name sensor_name : String) : String :=
  let x := lowerStr device_name
  let parent_name :=
    if strContainsSub x "wifi" then "Wifi"
    else if strContainsSub x "gpu" then "Gpu"
    else if strContainsSub x "nvidia" then "Gpu"
    else if strContainsSub x "it86" then "MB"
    else if strContainsSub x "k10" then "CPU"
    else if strContainsSub x "kraken" then "AIO"
    else if strContainsSub x "nvme" then "Nvme"
    else firstDashSegment device_name
  parent_name ++ ": " ++ sensor_name

/-- The inner sensor loop of `parse_lm_sensors_data`, from one `while let
Some(sensor_line) = lines.next()` entry on: returns the sensors parsed for
the current device section together with the lines remaining after the
section (the terminating blank line, when present, is consumed). -/
def parseSensors : List String → List LmSensorsSensor × List String
  | [] => ([], [])
  | sensor_line :: rest =>
    if trimChars sensor_line = "" then ([], rest)
    else if strEndsWith (trimChars sensor_line) ":" then
      let sensor_name := trimEndColons (trimChars sensor_line)
      match rest with
      | [] => ([], [])
      | value_line :: rest2 =>
        if strContainsSub value_line "input" then
          let parts := splitWs value_line
          if parts.length = 2 then
            let sensor_value := parseOrZero (parts.getD 1 "")
            let sensor_type := parse_lm_sensors_sensor_type (parts.getD 0 "")
            let ps := parseSensors rest2
            ({ name := sensor_name, value := sensor_value,
               sensor_type := sensor_type } :: ps.1, ps.2)
          else parseSensors rest2
        else parseSensors rest2
    else parseSensors rest

/-- The inner loop never leaves more lines than it was given. -/
theorem parseSensors_rem_le (ls : List String) :
    (parseSensors ls).2.length ≤ ls.length := by
  induction ls using parseSensors.induct <;>
    simp_all [parseSensors] <;> omega

/-- The outer loop of `parse_lm_sensors_data`, with an explicit fuel
parameter so the recursion is structural (and hence kernel-evaluable):
scan for a device-header line (any line containing `-`), read the adapter
line, run the sensor loop, push the device, repeat.  Every iteration of
the source loop consumes at least one line, so any fuel of at least the
number of lines is enough (`parseDevicesGo_congr`). -/
def parseDevicesGo : Nat → List String → List LmSensorsDevice
  | 0, _ => []
  | _ + 1, [] => []
  | fuel + 1, line :: rest =>
    if strContainsSub line "-" then
      match rest with
      | [] => [{ name := line, adapter := "", sensors := [] }]
      | adapter_line :: rest2 =>
        let adapter := stripAdapterLabels adapter_line
        let ps := parseSensors rest2
        { name := line, adapter := adapter, sensors := ps.1 } ::
          parseDevicesGo fuel ps.2
    else parseDevicesGo fuel rest

/-- The outer loop at its canonical fuel (the number of lines). -/
def parseDevices (ls : List String) : List LmSensorsDevice :=
  parseDevicesGo ls.length ls

/-- The fuel parameter of `parseDevicesGo` is irrelevant once it covers
the number of lines. -/
theorem parseDevicesGo_congr :
    ∀ (f1 f2 : Nat) (ls : List String), ls.length ≤ f1 → ls.length ≤ f2 →
      parseDevicesGo f1 ls = parseDevicesGo f2 ls := by
  intro f1
  induction f1 with
  | zero =>
    intro f2 ls h1 _
    have : ls = [] := List.length_eq_zero.mp (Nat.le_zero.mp h1)
    subst this
    cases f2 <;> rfl
  | succ f ih =>
    intro f2 ls h1 h2
    match ls with
    | [] => cases f2 <;> rfl
    | line :: rest =>
      match f2 with
      | 0 => simp at h2
      | g + 1 =>
        simp only [List.length_cons] at h1 h2
        simp only [parseDevicesGo]
        by_cases hc : strContainsSub line "-" = true
        · simp only [hc, if_true]
          match rest with
          | [] => rfl
          | adapter_line :: rest2 =>
            have hrem := parseSensors_rem_le rest2
            simp only [List.length_cons] at h1 h2
            have := ih g (parseSensors rest2).2 (by omega) (by omega)
            simp only [this]
        · simp only [hc, if_false]
          exact ih g rest (by omega) (by omega)

/-- `parse_lm_sensors_data`: parse the whole `sensors -u` output text. -/
def parse_lm_sensors_data (data : String) : List LmSensorsDevice :=
  parseDevices (rustLines data)

/-- Outcome of the external `Command::new("sensors").arg("-u").output()`
invocation, at the boundary the source observes: the invocation can fail
(`Err(_)`), or succeed with standard-output bytes that either decode as
UTF-8 text or do not. -/
inductive ToolOutcome where
  | invokeErr
  | okUndecodable
  | okText (s : String)
deriving DecidableEq

/-- `get_lm_sensor_data` on a non-Windows build (the `lmsensors` feature
targets Unix-like systems; the `cfg!(target_os = "windows")` early return
is not taken).  `Err(_)` from the command becomes the sentinel string
`"error"`, which is then dispatched to an empty device list — as is a
successful run whose stdout is literally `"error"`.  A successful run
whose stdout is not valid UTF-8 hits
`String::from_utf8(val.stdout).expect("error")`, which panics: that is
modelled by `none`. -/
def get_lm_sensor_data (tool : ToolOutcome) : Option (List LmSensorsDevice) :=
  match tool with
  | .invokeErr => some []
  | .okUndecodable => none
  | .okText s => if s = "error" then some [] else some (parse_lm_sensors_data s)

/-- The `TempHarvest` record pushed by `get_temperature_data` for one kept
sensor: the friendly name and the converted value. -/
def harvestRecord (temp_type : TemperatureType) (device : LmSensorsDevice)
    (sensor : LmSensorsSensor) : TempHarvest :=
  { name := format_friendly_names device.name sensor.name,
    temperature := some (temp_type.convert_temp_unit sensor.value) }

/-- The record-building double `for_each` of `get_temperature_data`:
for every device, for every sensor of kind `Temp` kept by the filter,
push a `TempHarvest` with the friendly name and the converted value. -/
def harvest (temp_type : TemperatureType) (filter : Option NameFilter)
    (sensor_data : List LmSensorsDevice) : List TempHarvest :=
  sensor_data.foldl
    (fun temperatures device =>
      device.sensors.foldl
        (fun temps sensor =>
          match sensor.sensor_type with
          | LmSensorsSensorType.Temp =>
            if NameFilter.optional_should_keep filter sensor.name then
              temps ++ [harvestRecord temp_type device sensor]
            else temps
          | _ => temps)
        temperatures)
    []

/-- `get_temperature_data`, the collector entry point: harvest the devices
produced by `get_lm_sensor_data` and return `Ok(Some(records))`.  The
outer `Option` models the panic possibility inherited from
`get_lm_sensor_data`. -/
def get_temperature_data (temp_type : TemperatureType) (filter : Option NameFilter)
    (tool : ToolOutcome) : Option (Except String (Option (List TempHarvest))) :=
  match get_lm_sensor_data tool with
  | none => none
  | some sensor_data => some (Except.ok (some (harvest temp_type filter sensor_data)))

example : parse_lm_sensors_data "dev-0\nAdapter: ISA\ntemp1:\n  temp1_input    45.0\n\n"
    = [{ name := "dev-0", adapter := "ISA",
         sensors := [{ name := "temp1", value := F32.finite 45,
                       sensor_type := LmSensorsSensorType.Temp }] }] := by decide
example : parse_lm_sensors_data "dev-0\n\n" = [{ name := "dev-0", adapter := "", sensors := [] }] := by
  decide
example : parse_lm_sensors_data "dev-0\nAdapter: ISA\ntemp1:\n  temp1_max    80.0\n\n"
    = [{ name := "dev-0", adapter := "ISA", sensors := [] }] := by decide
example : parse_lm_sensors_data "dev-0\nAdapter: ISA\ntemp1:\n  temp1_input    notanumber\n\n"
    = [{ name := "dev-0", adapter := "ISA",
         sensors := [{ name := "temp1", value := F32.finite 0,
                       sensor_type := LmSensorsSensorType.Temp }] }] := by decide
example : format_friendly_names "nvidia-pci-0300" "temp1" = "Gpu: temp1" := by decide
example : format_friendly_names "acpitz-virtual-0" "temp1" = "acpitz: temp1" := by decide
example : get_temperature_data TemperatureType.Celsius none
    (ToolOutcome.okText "a-b\nAdapter: X\ntemp1:\ntemp1_input inf\n")
    = some (Except.ok (some [{ name := "a: temp1", temperature := some F32.inf }])) := rfl
example : TemperatureType.from_str "bogus"
    = Except.error (invalidTempTypeMsg "bogus") := rfl

/-! ## Panic-explicit variant of the parser (for the totality claim)

The only positional indexing in `parse_lm_sensors_data` is `parts[1]`
(and `parts[0]`), which in Rust panics when out of bounds.  The variant
below models that indexing by `List.get?`, propagating a potential panic
as `none`; everything else is unchanged. -/

/-- A list of length two is exactly a two-element list. -/
theorem list_len_two {α : Type _} {l : List α} (h : l.length = 2) :
    ∃ a b, l = [a, b] := by
  match l with
  | [a, b] => exact ⟨a, b, rfl⟩
  | [] => simp at h
  | [a] => simp at h
  | a :: b :: c :: t => simp at h

/-- `parseSensors` with the `parts[1]`/`parts[0]` indexing made fallible:
`none` models an out-of-bounds panic. -/
def parseSensorsChecked : List String → Option (List LmSensorsSensor × List String)
  | [] => some ([], [])
  | sensor_line :: rest =>
    if trimChars sensor_line = "" then some ([], rest)
    else if strEndsWith (trimChars sensor_line) ":" then
      let sensor_name := trimEndColons (trimChars sensor_line)
      match rest with
      | [] => some ([], [])
      | value_line :: rest2 =>
        if strContainsSub value_line "input" then
          let parts := splitWs value_line
          if parts.length = 2 then
            match parts.get? 1, parts.get? 0 with
            | some p1, some p0 =>
              match parseSensorsChecked rest2 with
              | some ps =>
                some ({ name := sensor_name, value := parseOrZero p1,
                        sensor_type := parse_lm_sensors_sensor_type p0 } :: ps.1,
                      ps.2)
              | none => none
            | _, _ => none
          else parseSensorsChecked rest2
        else parseSensorsChecked rest2
    else parseSensorsChecked rest

/-- The guarded indexing never panics: the fallible inner loop agrees with
the total one. -/
theorem parseSensorsChecked_eq (ls : List String) :
    parseSensorsChecked ls = some (parseSensors ls) := by
  induction ls using parseSensorsChecked.induct <;>
    simp_all [parseSensorsChecked, parseSensors]


/-- `parseDevicesGo` with the fallible inner loop: `none` models a panic
escaping the parse. -/
def parseDevicesCheckedGo : Nat → List String → Option (List LmSensorsDevice)
  | 0, _ => some []
  | _ + 1, [] => some []
  | fuel + 1, line :: rest =>
    if strContainsSub line "-" then
      match rest with
      | [] => some [{ name := line, adapter := "", sensors := [] }]
      | adapter_line :: rest2 =>
        let adapter := stripAdapterLabels adapter_line
        match parseSensorsChecked rest2 with
        | none => none
        | some ps =>
          match parseDevicesCheckedGo fuel ps.2 with
          | none => none
          | some ds =>
            some ({ name := line, adapter := adapter, sensors := ps.1 } :: ds)
    else parseDevicesCheckedGo fuel rest

/-- The fallible outer loop agrees with the total one at every fuel. -/
theorem parseDevicesCheckedGo_eq (fuel : Nat) :
    ∀ ls : List String,
      parseDevicesCheckedGo fuel ls = some (parseDevicesGo fuel ls) := by
  induction fuel with
  | zero => intro ls; rfl
  | succ f ih =>
    intro ls
    match ls with
    | [] => rfl
    | line :: rest =>
      simp only [parseDevicesCheckedGo, parseDevicesGo]
      by_cases hc : strContainsSub line "-" = true
      · simp only [hc, if_true]
        match rest with
        | [] => rfl
        | adapter_line :: rest2 =>
          simp [parseSensorsChecked_eq rest2, ih]
      · simp [hc, ih]

/-- `parse_lm_sensors_data` with the positional indexing made fallible. -/
def parse_lm_sensors_data_checked (data : String) : Option (List LmSensorsDevice) :=
  parseDevicesCheckedGo (rustLines data).length (rustLines data)

/-! ## Helper lemmas -/

/-- A split iterator always yields at least one item. -/
theorem charSplit_ne_nil (sep : Char) (l : List Char) : charSplit sep l ≠ [] := by
  induction l with
  | nil => simp [charSplit]
  | cons c rest ih =>
    simp only [charSplit]
    split
    · simp
    · split <;> simp

/-- When the separator does not occur, splitting returns the whole list. -/
theorem charSplit_of_not_occurs (sep : Char) (l : List Char)
    (h : listOccurs [sep] l = false) : charSplit sep l = [l] := by
  induction l with
  | nil => rfl
  | cons c rest ih =>
    simp only [listOccurs, List.isPrefixOf, Bool.or_eq_false_iff,
      Bool.and_eq_false_iff] at h
    obtain ⟨h1, h2⟩ := h
    have hc : ¬c = sep := by
      intro hcs
      subst hcs
      simp [List.isPrefixOf] at h1
    simp only [charSplit, hc, if_false]
    rw [ih h2]

/-- Rebuilding a string from its characters is the identity. -/
theorem asString_toList (s : String) : s.toList.asString = s := rfl

/-- Characters of an appended string. -/
theorem strToList_append (a b : String) :
    (a ++ b).toList = a.toList ++ b.toList := rfl

/-- A substring of the right part occurs in the whole. -/
theorem listOccurs_append_right (p t : List Char) (l : List Char)
    (h : listOccurs p t = true) : listOccurs p (l ++ t) = true := by
  induction l with
  | nil => simpa using h
  | cons c rest ih => simp [listOccurs, ih]

/-- Strings of the shape `a ++ ": " ++ b` are never empty. -/
theorem append_label_ne_empty (a b : String) : a ++ ": " ++ b ≠ "" := by
  intro h
  have h2 := congrArg String.toList h
  rw [strToList_append, strToList_append] at h2
  simp at h2

/-- The friendly display name is never the empty string. -/
theorem format_friendly_names_ne_empty (device_name sensor_name : String) :
    format_friendly_names device_name sensor_name ≠ "" := by
  unfold format_friendly_names
  apply append_label_ne_empty


/-- Membership in the inner sensor `for_each` fold of `harvest`. -/
theorem harvest_inner_mem (temp_type : TemperatureType) (filter : Option NameFilter)
    (device : LmSensorsDevice) :
    ∀ (sensors : List LmSensorsSensor) (acc : List TempHarvest) (r : TempHarvest),
      r ∈ sensors.foldl
        (fun temps sensor =>
          match sensor.sensor_type with
          | LmSensorsSensorType.Temp =>
            if NameFilter.optional_should_keep filter sensor.name then
              temps ++ [harvestRecord temp_type device sensor]
            else temps
          | _ => temps) acc ↔
      r ∈ acc ∨ ∃ sensor ∈ sensors, sensor.sensor_type = LmSensorsSensorType.Temp ∧
        NameFilter.optional_should_keep filter sensor.name = true ∧
        r = harvestRecord temp_type device sensor := by
  intro sensors
  induction sensors with
  | nil => simp
  | cons sensor rest ih =>
    intro acc r
    simp only [List.foldl_cons, ih, List.mem_cons]
    cases htype : sensor.sensor_type with
    | Temp =>
      by_cases hf : NameFilter.optional_should_keep filter sensor.name = true
      · simp [htype, hf, List.mem_append]
        tauto
      · simp [htype, hf]
    | Fan =>
      simp [htype]
    | Voltage =>
      simp [htype]

/-- Membership in the records built by `harvest`: exactly the kept
temperature sensors, rendered by `harvestRecord`. -/
theorem harvest_mem (temp_type : TemperatureType) (filter : Option NameFilter) :
    ∀ (devices : List LmSensorsDevice) (acc : List TempHarvest) (r : TempHarvest),
      r ∈ devices.foldl
        (fun temperatures device =>
          device.sensors.foldl
            (fun temps sensor =>
              match sensor.sensor_type with
              | LmSensorsSensorType.Temp =>
                if NameFilter.optional_should_keep filter sensor.name then
                  temps ++ [harvestRecord temp_type device sensor]
                else temps
              | _ => temps) temperatures) acc ↔
      r ∈ acc ∨ ∃ device ∈ devices, ∃ sensor ∈ device.sensors,
        sensor.sensor_type = LmSensorsSensorType.Temp ∧
        NameFilter.optional_should_keep filter sensor.name = true ∧
        r = harvestRecord temp_type device sensor := by
  intro devices
  induction devices with
  | nil => simp
  | cons device rest ih =>
    intro acc r
    simp only [List.foldl_cons, ih, harvest_inner_mem, List.mem_cons]
    constructor
    · rintro (h | h)
      · rcases h with h | h
        · exact Or.inl h
        · obtain ⟨sensor, hs, h1, h2, h3⟩ := h
          exact Or.inr ⟨device, Or.inl rfl, sensor, hs, h1, h2, h3⟩
      · obtain ⟨d, hd, sensor, hs, h1, h2, h3⟩ := h
        exact Or.inr ⟨d, Or.inr hd, sensor, hs, h1, h2, h3⟩
    · rintro (h | h)
      · exact Or.inl (Or.inl h)
      · obtain ⟨d, hd | hd, sensor, hs, h1, h2, h3⟩ := h
        · subst hd
          exact Or.inl (Or.inr ⟨sensor, hs, h1, h2, h3⟩)
        · exact Or.inr ⟨d, hd, sensor, hs, h1, h2, h3⟩

/-- Membership in `harvest` itself. -/
theorem mem_harvest (temp_type : TemperatureType) (filter : Option NameFilter)
    (devices : List LmSensorsDevice) (r : TempHarvest) :
    r ∈ harvest temp_type filter devices ↔
      ∃ device ∈ devices, ∃ sensor ∈ device.sensors,
        sensor.sensor_type = LmSensorsSensorType.Temp ∧
        NameFilter.optional_should_keep filter sensor.name = true ∧
        r = harvestRecord temp_type device sensor := by
  unfold harvest
  rw [harvest_mem]
  simp

/-! ## The claims -/

/-- C1: evaluation of the collector at the tool outcomes.  When invocation
of the `sensors` tool fails, `get_temperature_data` returns
`Ok(Some(vec![]))`; but when the tool runs and its standard output is not
valid UTF-8, `String::from_utf8(val.stdout).expect("error")` panics
(modelled by `none`) instead of degrading to the empty result. -/
theorem C1_collector_tool_failure :
    get_temperature_data TemperatureType.Celsius none ToolOutcome.invokeErr
      = some (Except.ok (some []))
    ∧ get_temperature_data TemperatureType.Celsius none ToolOutcome.okUndecodable
      = none :=
  ⟨rfl, rfl⟩

/-- C6: `convert_temp_unit` is total; Celsius is the identity, Kelvin adds
`273.15` and Fahrenheit is `c × 9/5 + 32`; in particular `100` Celsius is
`373.15` Kelvin and `212` Fahrenheit. -/
theorem C6_convert_temp_unit :
    (∀ q : ℚ,
      TemperatureType.Celsius.convert_temp_unit (F32.finite q) = F32.finite q ∧
      TemperatureType.Kelvin.convert_temp_unit (F32.finite q)
        = F32.finite (q + 27315 / 100) ∧
      TemperatureType.Fahrenheit.convert_temp_unit (F32.finite q)
        = F32.finite (q * (9 / 5) + 32)) ∧
    TemperatureType.Kelvin.convert_temp_unit (F32.finite 100)
      = F32.finite (37315 / 100) ∧
    TemperatureType.Fahrenheit.convert_temp_unit (F32.finite 100)
      = F32.finite 212 := by
  have hk : (mkRat 27315 100 : ℚ) = 27315 / 100 := by
    rw [Rat.mkRat_eq_divInt, Rat.divInt_eq_div]
    norm_num
  have hf : (mkRat 9 5 : ℚ) = 9 / 5 := by
    rw [Rat.mkRat_eq_divInt, Rat.divInt_eq_div]
    norm_num
  refine ⟨fun q => ⟨rfl, ?_, ?_⟩, ?_, ?_⟩
  · show F32.finite (q + mkRat 27315 100) = F32.finite (q + 27315 / 100)
    rw [hk]
  · show F32.finite (q * mkRat 9 5 + 32) = F32.finite (q * (9 / 5) + 32)
    rw [hf]
  · show F32.finite (100 + mkRat 27315 100) = F32.finite (37315 / 100)
    rw [hk]
    norm_num
  · show F32.finite (100 * mkRat 9 5 + 32) = F32.finite 212
    rw [hf]
    norm_num

/-- C10: `parse_lm_sensors_data` is total and panic-free: the variant in
which the `parts[1]`/`parts[0]` indexing can fail agrees with the total
parser on every input (the length-two guard keeps the indexing in bounds;
float-parse failures default to `0.0`; a missing adapter line defaults to
the empty string). -/
theorem C10_parse_total (data : String) :
    parse_lm_sensors_data_checked data = some (parse_lm_sensors_data data) := by
  unfold parse_lm_sensors_data_checked parse_lm_sensors_data parseDevices
  exact parseDevicesCheckedGo_eq _ _

/-- C7: unit-selector parsing accepts exactly the case-sensitive tokens
`fahrenheit`/`f`, `kelvin`/`k`, `celsius`/`c`; every other string errors
with a message that mentions all six valid tokens. -/
theorem C7_from_str (s : String) :
    (TemperatureType.from_str s = Except.ok TemperatureType.Fahrenheit ↔
      (s = "fahrenheit" ∨ s = "f")) ∧
    (TemperatureType.from_str s = Except.ok TemperatureType.Kelvin ↔
      (s = "kelvin" ∨ s = "k")) ∧
    (TemperatureType.from_str s = Except.ok TemperatureType.Celsius ↔
      (s = "celsius" ∨ s = "c")) ∧
    (¬(s = "fahrenheit" ∨ s = "f" ∨ s = "kelvin" ∨ s = "k" ∨ s = "celsius" ∨ s = "c") →
      TemperatureType.from_str s = Except.error (invalidTempTypeMsg s) ∧
      strContainsSub (invalidTempTypeMsg s) "kelvin" = true ∧
      strContainsSub (invalidTempTypeMsg s) "k" = true ∧
      strContainsSub (invalidTempTypeMsg s) "celsius" = true ∧
      strContainsSub (invalidTempTypeMsg s) "c" = true ∧
      strContainsSub (invalidTempTypeMsg s) "fahrenheit" = true ∧
      strContainsSub (invalidTempTypeMsg s) "f" = true) := by
  have hmsg : ∀ tok : String,
      listOccurs tok.toList
        (" is an invalid temperature type, use one of: [kelvin, k, celsius, c, fahrenheit, f].").toList = true →
      strContainsSub (invalidTempTypeMsg s) tok = true := by
    intro tok htok
    unfold strContainsSub invalidTempTypeMsg
    rw [strToList_append]
    exact listOccurs_append_right _ _ _ htok
  by_cases h : s = "fahrenheit" ∨ s = "f" ∨ s = "kelvin" ∨ s = "k" ∨ s = "celsius" ∨ s = "c"
  · rcases h with rfl | rfl | rfl | rfl | rfl | rfl <;>
      simp [TemperatureType.from_str]
  · push_neg at h
    obtain ⟨h1, h2, h3, h4, h5, h6⟩ := h
    refine ⟨?_, ?_, ?_, ?_⟩
    · simp [TemperatureType.from_str, h1, h2, h3, h4, h5, h6]
    · simp [TemperatureType.from_str, h1, h2, h3, h4, h5, h6]
    · simp [TemperatureType.from_str, h1, h2, h3, h4, h5, h6]
    · intro _
      refine ⟨?_, hmsg _ (by decide), hmsg _ (by decide), hmsg _ (by decide),
        hmsg _ (by decide), hmsg _ (by decide), hmsg _ (by decide)⟩
      simp [TemperatureType.from_str, h1, h2, h3, h4, h5, h6]

/-- C7 witness: the other-cased token `F` and the token `bogus` are
rejected with the descriptive message, and each plain token parses. -/
theorem C7_from_str_witness :
    TemperatureType.from_str "F" = Except.error (invalidTempTypeMsg "F") ∧
    strContainsSub (invalidTempTypeMsg "F") "kelvin" = true ∧
    TemperatureType.from_str "bogus" = Except.error (invalidTempTypeMsg "bogus") ∧
    TemperatureType.from_str "f" = Except.ok TemperatureType.Fahrenheit ∧
    TemperatureType.from_str "kelvin" = Except.ok TemperatureType.Kelvin ∧
    TemperatureType.from_str "c" = Except.ok TemperatureType.Celsius :=
  ⟨((C7_from_str "F").2.2.2 (by decide)).1,
   ((C7_from_str "F").2.2.2 (by decide)).2.1,
   ((C7_from_str "bogus").2.2.2 (by decide)).1,
   (C7_from_str "f").1.mpr (Or.inr rfl),
   (C7_from_str "kelvin").2.1.mpr (Or.inl rfl),
   (C7_from_str "c").2.2.1.mpr (Or.inr rfl)⟩

/-- C9: under the text-tool strategy every returned record carries
`temperature = Some …`; the `None` case of the optional field never
occurs, whatever the tool output, filter and unit. -/
theorem C9_temperature_always_some (t : TemperatureType) (f : Option NameFilter)
    (tool : ToolOutcome) (recs : List TempHarvest)
    (h : get_temperature_data t f tool = some (Except.ok (some recs))) :
    ∀ r ∈ recs, r.temperature.isSome = true := by
  intro r hr
  unfold get_temperature_data at h
  match hg : get_lm_sensor_data tool with
  | none => rw [hg] at h; simp at h
  | some sensor_data =>
    rw [hg] at h
    simp only [Option.some.injEq, Except.ok.injEq] at h
    subst h
    obtain ⟨d, _, s, _, _, _, hrec⟩ :=
      (mem_harvest t f sensor_data r).mp hr
    rw [hrec]
    rfl

/-- C9 witness: a concrete harvested record has a `Some` temperature. -/
theorem C9_temperature_always_some_witness :
    ({ name := "a: temp1", temperature := some (F32.finite 45) } : TempHarvest).temperature.isSome
      = true :=
  C9_temperature_always_some TemperatureType.Celsius none
    (ToolOutcome.okText "a-b\nAdapter: X\ntemp1:\ntemp1_input 45.0\n")
    (harvest TemperatureType.Celsius none
      (parse_lm_sensors_data "a-b\nAdapter: X\ntemp1:\ntemp1_input 45.0\n"))
    rfl
    { name := "a: temp1", temperature := some (F32.finite 45) }
    (by decide)

/-- C2: inside a device section, the line immediately after a sensor-name
line decides the record: with `"input"` and exactly two whitespace tokens
a record is pushed whose value is the second token parsed as a float
(`0.0` on parse failure) and whose kind comes from the first token
(`temp` → Temperature, else `fan` → Fan, else Voltage); without `"input"`,
or with a token count other than two, no record is produced and parsing
continues. -/
theorem C2_sensor_value_line (nameLine valueLine : String) (rest : List String)
    (t1 t2 : String)
    (hname : ¬trimChars nameLine = "")
    (hcolon : strEndsWith (trimChars nameLine) ":" = true) :
    (strContainsSub valueLine "input" = true → splitWs valueLine = [t1, t2] →
      parseSensors (nameLine :: valueLine :: rest) =
        ({ name := trimEndColons (trimChars nameLine),
           value := (parseF32 t2).getD (F32.finite 0),
           sensor_type := parse_lm_sensors_sensor_type t1 } :: (parseSensors rest).1,
         (parseSensors rest).2)) ∧
    (strContainsSub valueLine "input" = false →
      parseSensors (nameLine :: valueLine :: rest) = parseSensors rest) ∧
    (strContainsSub valueLine "input" = true → (splitWs valueLine).length ≠ 2 →
      parseSensors (nameLine :: valueLine :: rest) = parseSensors rest) ∧
    (parse_lm_sensors_sensor_type t1 = LmSensorsSensorType.Temp ↔
      strContainsSub t1 "temp" = true) ∧
    (strContainsSub t1 "temp" = false →
      (parse_lm_sensors_sensor_type t1 = LmSensorsSensorType.Fan ↔
        strContainsSub t1 "fan" = true)) ∧
    (strContainsSub t1 "temp" = false → strContainsSub t1 "fan" = false →
      parse_lm_sensors_sensor_type t1 = LmSensorsSensorType.Voltage) := by
  refine ⟨?_, ?_, ?_, ?_, ?_, ?_⟩
  · intro hin hsplit
    simp [parseSensors, hname, hcolon, hin, hsplit, parseOrZero]
  · intro hin
    simp [parseSensors, hname, hcolon, hin]
  · intro hin hlen
    simp [parseSensors, hname, hcolon, hin, hlen]
  · unfold parse_lm_sensors_sensor_type
    by_cases h : strContainsSub t1 "temp" = true
    · simp [h]
    · simp only [Bool.not_eq_true] at h
      simp [h]
      split <;> simp_all
  · intro h
    unfold parse_lm_sensors_sensor_type
    by_cases h2 : strContainsSub t1 "fan" = true
    · simp [h, h2]
    · simp only [Bool.not_eq_true] at h2
      simp [h, h2]
  · intro h h2
    unfold parse_lm_sensors_sensor_type
    simp [h, h2]

/-- C2 witness: the concrete sensor block `temp1:` /
`  temp1_input    45.0` yields the expected record. -/
theorem C2_sensor_value_line_witness :
    parseSensors ["temp1:", "  temp1_input    45.0"] =
      ({ name := "temp1", value := F32.finite 45,
         sensor_type := LmSensorsSensorType.Temp } :: (parseSensors []).1,
       (parseSensors []).2) :=
  ((C2_sensor_value_line "temp1:" "  temp1_input    45.0" [] "temp1_input" "45.0"
      (by decide) (by decide)).1 (by decide) (by decide)).trans (by decide)

/-- The adapter transformation as the claim words it (for comparison with
the source behaviour): strip one leading `"Adapter: "` label if present,
otherwise leave the line unchanged. -/
def stripLeadingAdapterLabel (s : String) : String :=
  if ("Adapter: ".toList).isPrefixOf s.toList then (s.toList.drop 9).asString
  else s

/-- C4 counterexample: on the header `dev-0` followed by the line
`x Adapter: y`, the code removes the inner occurrence of `"Adapter: "`
and records adapter `"x y"`, whereas stripping a leading label (the
claim) would leave `"x Adapter: y"` unchanged. -/
theorem C4_adapter_counterexample :
    parse_lm_sensors_data "dev-0\nx Adapter: y\n"
      = [{ name := "dev-0", adapter := "x y", sensors := [] }] ∧
    stripLeadingAdapterLabel "x Adapter: y" = "x Adapter: y" ∧
    ("x y" : String) ≠ "x Adapter: y" := by
  refine ⟨by decide, by decide, by decide⟩

/-- C4 (amended): a line containing `-` reached while scanning for a
header starts a device named by the full line, whose adapter is the next
line with every occurrence of the substring `"Adapter: "` removed (empty
when the input is exhausted), followed by the sensors of its section. -/
theorem C4_device_header (line : String) (rest : List String)
    (hheader : strContainsSub line "-" = true) :
    (rest = [] →
      parseDevices (line :: rest) = [{ name := line, adapter := "", sensors := [] }]) ∧
    (∀ adapter_line rest2, rest = adapter_line :: rest2 →
      parseDevices (line :: rest) =
        { name := line, adapter := stripAdapterLabels adapter_line,
          sensors := (parseSensors rest2).1 } :: parseDevices ((parseSensors rest2).2)) := by
  constructor
  · rintro rfl
    simp [parseDevices, parseDevicesGo, hheader]
  · rintro adapter_line rest2 rfl
    show parseDevicesGo (rest2.length + 2) (line :: adapter_line :: rest2) = _
    simp only [parseDevicesGo, hheader, if_true]
    have hrem := parseSensors_rem_le rest2
    rw [parseDevicesGo_congr (rest2.length + 1) (parseSensors rest2).2.length
      (parseSensors rest2).2 (by omega) (by omega)]
    rfl

/-- C4 witness: the full concrete example of the claim parses to one
device `dev-0` with adapter `ISA` and one Temperature sensor `temp1` of
value `45.0`. -/
theorem C4_device_header_witness :
    parse_lm_sensors_data "dev-0\nAdapter: ISA\ntemp1:\n  temp1_input    45.0\n\n"
      = [{ name := "dev-0", adapter := "ISA",
           sensors := [{ name := "temp1", value := F32.finite 45,
                         sensor_type := LmSensorsSensorType.Temp }] }] ∧
    parseDevices ["dev-0", "Adapter: ISA", "temp1:", "  temp1_input    45.0", ""]
      = { name := "dev-0", adapter := stripAdapterLabels "Adapter: ISA",
          sensors := (parseSensors ["temp1:", "  temp1_input    45.0", ""]).1 } ::
          parseDevices ((parseSensors ["temp1:", "  temp1_input    45.0", ""]).2) :=
  ⟨by decide,
   (C4_device_header "dev-0" ["Adapter: ISA", "temp1:", "  temp1_input    45.0", ""]
      (by decide)).2 "Adapter: ISA" ["temp1:", "  temp1_input    45.0", ""] rfl⟩

/-- C5: `format_friendly_names` is total and returns
`"<label>: <sensor_name>"`, with the label chosen by case-insensitive
substring rules in priority order (first match wins) and defaulting to
the prefix of the device name before its first `-` — the whole name,
without error, when it contains no `-` (including the empty name). -/
theorem C5_format_friendly_names (d s : String) :
    (strContainsSub (lowerStr d) "wifi" = true →
      format_friendly_names d s = "Wifi" ++ ": " ++ s) ∧
    (strContainsSub (lowerStr d) "wifi" = false →
      (strContainsSub (lowerStr d) "gpu" = true ∨ strContainsSub (lowerStr d) "nvidia" = true) →
      format_friendly_names d s = "Gpu" ++ ": " ++ s) ∧
    (strContainsSub (lowerStr d) "wifi" = false →
      strContainsSub (lowerStr d) "gpu" = false →
      strContainsSub (lowerStr d) "nvidia" = false →
      strContainsSub (lowerStr d) "it86" = true →
      format_friendly_names d s = "MB" ++ ": " ++ s) ∧
    (strContainsSub (lowerStr d) "wifi" = false →
      strContainsSub (lowerStr d) "gpu" = false →
      strContainsSub (lowerStr d) "nvidia" = false →
      strContainsSub (lowerStr d) "it86" = false →
      strContainsSub (lowerStr d) "k10" = true →
      format_friendly_names d s = "CPU" ++ ": " ++ s) ∧
    (strContainsSub (lowerStr d) "wifi" = false →
      strContainsSub (lowerStr d) "gpu" = false →
      strContainsSub (lowerStr d) "nvidia" = false →
      strContainsSub (lowerStr d) "it86" = false →
      strContainsSub (lowerStr d) "k10" = false →
      strContainsSub (lowerStr d) "kraken" = true →
      format_friendly_names d s = "AIO" ++ ": " ++ s) ∧
    (strContainsSub (lowerStr d) "wifi" = false →
      strContainsSub (lowerStr d) "gpu" = false →
      strContainsSub (lowerStr d) "nvidia" = false →
      strContainsSub (lowerStr d) "it86" = false →
      strContainsSub (lowerStr d) "k10" = false →
      strContainsSub (lowerStr d) "kraken" = false →
      strContainsSub (lowerStr d) "nvme" = true →
      format_friendly_names d s = "Nvme" ++ ": " ++ s) ∧
    (strContainsSub (lowerStr d) "wifi" = false →
      strContainsSub (lowerStr d) "gpu" = false →
      strContainsSub (lowerStr d) "nvidia" = false →
      strContainsSub (lowerStr d) "it86" = false →
      strContainsSub (lowerStr d) "k10" = false →
      strContainsSub (lowerStr d) "kraken" = false →
      strContainsSub (lowerStr d) "nvme" = false →
      format_friendly_names d s = firstDashSegment d ++ ": " ++ s ∧
      (strContainsSub d "-" = false → format_friendly_names d s = d ++ ": " ++ s)) := by
  refine ⟨?_, ?_, ?_, ?_, ?_, ?_, ?_⟩
  · intro h1
    simp [format_friendly_names, h1]
  · rintro h1 (h2 | h2) <;> simp [format_friendly_names, h1, h2]
  · intro h1 h2 h3 h4
    simp [format_friendly_names, h1, h2, h3, h4]
  · intro h1 h2 h3 h4 h5
    simp [format_friendly_names, h1, h2, h3, h4, h5]
  · intro h1 h2 h3 h4 h5 h6
    simp [format_friendly_names, h1, h2, h3, h4, h5, h6]
  · intro h1 h2 h3 h4 h5 h6 h7
    simp [format_friendly_names, h1, h2, h3, h4, h5, h6, h7]
  · intro h1 h2 h3 h4 h5 h6 h7
    have hdef : format_friendly_names d s = firstDashSegment d ++ ": " ++ s := by
      simp [format_friendly_names, h1, h2, h3, h4, h5, h6, h7]
    refine ⟨hdef, ?_⟩
    intro hnodash
    rw [hdef]
    have hocc : listOccurs [Char.ofNat 45] d.toList = false := hnodash
    have hsplit := charSplit_of_not_occurs (Char.ofNat 45) d.toList hocc
    unfold firstDashSegment
    rw [hsplit]
    rfl

/-- C5 witness: the two examples of the claim. -/
theorem C5_format_friendly_names_witness :
    format_friendly_names "nvidia-pci-0300" "temp1" = "Gpu: temp1" ∧
    format_friendly_names "acpitz-virtual-0" "temp1" = "acpitz: temp1" :=
  ⟨((C5_format_friendly_names "nvidia-pci-0300" "temp1").2.1 (by decide)
      (Or.inr (by decide))).trans (by decide),
   (((C5_format_friendly_names "acpitz-virtual-0" "temp1").2.2.2.2.2.2 (by decide)
      (by decide) (by decide) (by decide) (by decide) (by decide) (by decide)).1).trans
      (by decide)⟩

/-- C8: a parsed sensor is included in the result exactly when its kind is
Temperature and `optional_should_keep` accepts its raw name (always true
without a filter); a filter rejecting every name yields `Ok(Some(vec![]))`
regardless of the device data. -/
theorem C8_filter_inclusion (t : TemperatureType) (f : Option NameFilter)
    (devices : List LmSensorsDevice) :
    (∀ r : TempHarvest, r ∈ harvest t f devices ↔
      ∃ device ∈ devices, ∃ sensor ∈ device.sensors,
        sensor.sensor_type = LmSensorsSensorType.Temp ∧
        NameFilter.optional_should_keep f sensor.name = true ∧
        r = harvestRecord t device sensor) ∧
    (∀ name, NameFilter.optional_should_keep none name = true) ∧
    (∀ fl : NameFilter, (∀ name, fl name = false) →
      harvest t (some fl) devices = []) ∧
    (∀ fl : NameFilter, (∀ name, fl name = false) → ∀ data : String,
      get_temperature_data t (some fl) (ToolOutcome.okText data)
        = some (Except.ok (some []))) := by
  have hreject : ∀ (fl : NameFilter), (∀ name, fl name = false) →
      ∀ ds : List LmSensorsDevice, harvest t (some fl) ds = [] := by
    intro fl hfl ds
    rw [List.eq_nil_iff_forall_not_mem]
    intro r hr
    obtain ⟨device, _, sensor, _, _, hkeep, _⟩ := (mem_harvest t (some fl) ds r).mp hr
    rw [show NameFilter.optional_should_keep (some fl) sensor.name = fl sensor.name
      from rfl, hfl sensor.name] at hkeep
    exact Bool.false_ne_true hkeep
  refine ⟨mem_harvest t f devices, fun _ => rfl, fun fl hfl => hreject fl hfl devices, ?_⟩
  intro fl hfl data
  unfold get_temperature_data get_lm_sensor_data
  by_cases herr : data = "error"
  · simp only [herr, if_true]
    rfl
  · simp only [herr, if_false]
    rw [hreject fl hfl]

/-- C8 witness: with no filter, the concrete device's temperature sensor
is included; with a reject-everything filter, the result is empty. -/
theorem C8_filter_inclusion_witness :
    ({ name := "a: temp1", temperature := some (F32.finite 45) } : TempHarvest) ∈
      harvest TemperatureType.Celsius none
        [{ name := "a-b", adapter := "X",
           sensors := [{ name := "temp1", value := F32.finite 45,
                         sensor_type := LmSensorsSensorType.Temp }] }] ∧
    get_temperature_data TemperatureType.Celsius (some (fun _ => false))
      (ToolOutcome.okText "a-b\nAdapter: X\ntemp1:\ntemp1_input 45.0\n")
      = some (Except.ok (some [])) :=
  ⟨((C8_filter_inclusion TemperatureType.Celsius none _).1 _).mpr
      ⟨_, List.mem_singleton.mpr rfl, _, List.mem_singleton.mpr rfl, rfl, rfl, by decide⟩,
   (C8_filter_inclusion TemperatureType.Celsius (some (fun _ => false)) []).2.2.2
      (fun _ => false) (fun _ => rfl) _⟩

/-- C3 counterexample: Rust's float parser accepts the literal `inf`, so
the tool output `a-b\nAdapter: X\ntemp1:\ntemp1_input inf\n` makes
`get_temperature_data` return a record whose present temperature is not
finite. -/
theorem C3_infinite_temperature_counterexample :
    get_temperature_data TemperatureType.Celsius none
      (ToolOutcome.okText "a-b\nAdapter: X\ntemp1:\ntemp1_input inf\n")
      = some (Except.ok (some [{ name := "a: temp1", temperature := some F32.inf }])) ∧
    F32.isFinite F32.inf = false :=
  ⟨rfl, rfl⟩

/-- C3 (amended): every record returned by `get_temperature_data` has a
non-empty name and a present (`Some`) temperature.  The claimed
finiteness of the present value does not hold and is not asserted here:
the float parser accepts `inf`/`nan` literals (the counterexample), and
`f32` unit conversion can itself overflow to infinity for large finite
readings — a behaviour this model's exact-rational arithmetic does not
track, so no finiteness conclusion is drawn from it. -/
theorem C3_record_invariant (t : TemperatureType) (f : Option NameFilter)
    (tool : ToolOutcome) (recs : List TempHarvest)
    (hrecs : get_temperature_data t f tool = some (Except.ok (some recs))) :
    ∀ r ∈ recs, r.name ≠ "" ∧ ∃ v, r.temperature = some v := by
  intro r hr
  unfold get_temperature_data at hrecs
  match hg : get_lm_sensor_data tool with
  | none => rw [hg] at hrecs; simp at hrecs
  | some devices =>
    rw [hg] at hrecs
    simp only [Option.some.injEq, Except.ok.injEq] at hrecs
    subst hrecs
    obtain ⟨device, _, sensor, _, _, _, hrec⟩ := (mem_harvest t f devices r).mp hr
    subst hrec
    exact ⟨format_friendly_names_ne_empty device.name sensor.name,
      t.convert_temp_unit sensor.value, rfl⟩

/-- C3 witness: on a well-formed tool output the returned record has a
non-empty name and a present temperature. -/
theorem C3_record_invariant_witness :
    ({ name := "a: temp1", temperature := some (F32.finite 45) } : TempHarvest).name ≠ "" ∧
    ∃ v, ({ name := "a: temp1", temperature := some (F32.finite 45) } : TempHarvest).temperature
        = some v :=
  C3_record_invariant TemperatureType.Celsius none
    (ToolOutcome.okText "a-b\nAdapter: X\ntemp1:\ntemp1_input 45.0\n")
    (harvest TemperatureType.Celsius none
      (parse_lm_sensors_data "a-b\nAdapter: X\ntemp1:\ntemp1_input 45.0\n"))
    rfl
    { name := "a: temp1", temperature := some (F32.finite 45) }
    (by decide)
